import Mathlib

/-!
Verification of the peillute command-replication core (`src/control.rs`)
against its natural-language specification.

The Rust module is embedded shallowly:
* `Command` and `parse_command` mirror the command enumeration and parser.
* `run_cli` mirrors the stdin line classifier.
* `handle_command` mirrors the dispatcher.  Its collaborators — the SQLite
  ledger (`db::*`), the broadcaster (`send_message_to_all`) and stdin — are
  modelled as oracles in an `Env` record plus an input line list; the
  function returns a trace (`HRes`) recording the db calls, prompts and
  broadcast attempts it performed, the final clock and its outcome
  (`ok` / `err` for `Err` returns via `?` / `fatal` for a `panic` caused by
  `.unwrap()` on an `Err` / `stuck` when the interactive prompt would block
  or loop forever because the input stream is exhausted).
-/

namespace Peillute

/-- The `Command` enum of `control.rs` (lines 32–46), verbatim. -/
inductive Command where
  | CreateUser
  | UserAccounts
  | PrintUserTransactions
  | PrintTransactions
  | Deposit
  | Withdraw
  | Transfer
  | Pay
  | Refund
  | Help
  | Unknown (s : String)
  | Error (s : String)
deriving DecidableEq, Repr

/-- Modelled from the Rust standard library: `str::trim` — drop whitespace
characters from both ends.  (Implemented directly on the character list so
it computes by kernel reduction.) -/
def trimChars (cs : List Char) : List Char :=
  ((cs.dropWhile Char.isWhitespace).reverse.dropWhile Char.isWhitespace).reverse

/-- `str::trim` on `String`, see `trimChars`. -/
def trim (s : String) : String :=
  ⟨trimChars s.toList⟩

/-- `parse_command` of `control.rs` (lines 48–62): match on `input.trim()`
against the ten slash commands, anything else becomes `Unknown` of the
trimmed text.  The Rust `match` on string literals is an equality chain,
rendered here as nested `if`s. -/
def parse_command (input : String) : Command :=
  let t := trim input
  if t = "/create_user" then Command.CreateUser
  else if t = "/user_accounts" then Command.UserAccounts
  else if t = "/print_user_tsx" then Command.PrintUserTransactions
  else if t = "/print_tsx" then Command.PrintTransactions
  else if t = "/deposit" then Command.Deposit
  else if t = "/withdraw" then Command.Withdraw
  else if t = "/transfer" then Command.Transfer
  else if t = "/pay" then Command.Pay
  else if t = "/refund" then Command.Refund
  else if t = "/help" then Command.Help
  else Command.Unknown t

/-- `run_cli` of `control.rs` (lines 10–30).  The argument mirrors
`Result<Option<String>, std::io::Error>`, with the I/O error abstracted to
its message string.  `run_cli` touches no ledger state (it does not even
receive the connection); its only side effects in Rust are prints and log
lines, so it is a pure function here. -/
def run_cli (line : Except String (Option String)) : Command :=
  match line with
  | Except.ok (some cmd) => parse_command cmd
  | Except.ok none => Command.Unknown "Aucun input"
  | Except.error _ => Command.Error "Erreur de lecture stdin"

/-- Numeric value of a digit run (most significant first). -/
def digitsVal (cs : List Char) : Nat :=
  cs.foldl (fun n c => 10 * n + (c.toNat - 48)) 0

/-- Modelled from the Rust standard library (not repository code):
`<f64 as FromStr>::parse` restricted to plain decimal literals — an
optional sign, an integer part, an optional `.` and fractional part, at
least one digit overall.  Exponents, `inf` and `NaN` are outside the
fragment this module feeds it; values are taken exact in `ℚ` since no
claim depends on binary rounding. -/
def parseUnsignedDec (cs : List Char) : Option ℚ :=
  let intP := cs.takeWhile (fun c => c ≠ '.')
  match cs.dropWhile (fun c => c ≠ '.') with
  | [] =>
    if intP ≠ [] ∧ intP.all Char.isDigit then some (digitsVal intP : ℚ) else none
  | _ :: frac =>
    if '.' ∈ frac then none
    else if intP = [] ∧ frac = [] then none
    else if intP.all Char.isDigit ∧ frac.all Char.isDigit then
      some ((digitsVal intP : ℚ) + (digitsVal frac : ℚ) / (10 : ℚ) ^ frac.length)
    else none

/-- Modelled from the Rust standard library: `str::parse::<f64>()` on the
decimal fragment (see `parseUnsignedDec`). -/
def parse_f64 (s : String) : Option ℚ :=
  match s.toList with
  | [] => none
  | '+' :: rest => parseUnsignedDec rest
  | '-' :: rest => (parseUnsignedDec rest).map (fun q => -q)
  | cs => parseUnsignedDec cs

/-- Modelled from the Rust standard library: `str::parse::<i64>()` —
optional sign, a nonempty digit run, and the value must fit in `i64`. -/
def parse_i64 (s : String) : Option Int :=
  let core : List Char → Option Int := fun cs =>
    if cs ≠ [] ∧ cs.all Char.isDigit then some (digitsVal cs : Int) else none
  let inRange : Int → Option Int := fun n =>
    if -(2 ^ 63) ≤ n ∧ n < 2 ^ 63 then some n else none
  match s.toList with
  | '+' :: rest => (core rest).bind inRange
  | '-' :: rest => ((core rest).map (fun n => -n)).bind inRange
  | cs => (core cs).bind inRange

/-- Modelled from the spec (§3): `message.rs` is not under `src/`; the spec
gives `NetworkMessageCode` as classifying the payload, with `Transaction`
for ledger-mutating payloads.  `control.rs` only ever uses `Transaction`. -/
inductive NetworkMessageCode where
  | Transaction
deriving DecidableEq, Repr

/-- Modelled from the spec (§3): `message.rs` is not under `src/`; the spec
gives `MessageInfo` as a closed set of variants mirroring each replicable
command with exactly the replay data, matching the constructor calls
visible in `control.rs`. -/
inductive MessageInfo where
  | CreateUser (name : String)
  | Deposit (name : String) (amount : ℚ)
  | Withdraw (name : String) (amount : ℚ)
  | Transfer (sender beneficiary : String) (amount : ℚ)
  | Pay (name : String) (amount : ℚ)
deriving DecidableEq, Repr

/-- The argument triple of every `send_message_to_all` call in
`control.rs`: origin command, code, payload — the `Message` envelope of
the spec (§3). -/
structure Msg where
  origin_command : Option Command
  code : NetworkMessageCode
  info : MessageInfo
deriving DecidableEq, Repr

/-- One call into the ledger collaborator `db`, with the exact arguments
`control.rs` passes (names/inputs already trimmed by `prompt`). -/
inductive DbOp where
  | create_user (name : String)
  | print_users
  | print_transaction_for_user (name : String)
  | print_transactions
  | deposit (name : String) (amount : ℚ) (clock : Int) (node : String)
  | withdraw (name : String) (amount : ℚ) (clock : Int) (node : String)
  | create_transaction (sender beneficiary : String) (amount : ℚ)
      (clock : Int) (node : String) (reference : String)
  | refund_transaction (transacTime : Int) (transacNode : String)
      (clock : Int) (node : String)
deriving DecidableEq, Repr

/-- Oracles for the dispatcher's collaborators: the result each `db` call
returns, how a `db` call updates the `&mut i64` Lamport clock it receives,
and the result of `send_message_to_all`.  `db.rs` and `network.rs` are not
under `src/`, so their behaviour is left free; every theorem below holds
for all oracles (or for the stated oracle behaviour). -/
structure Env where
  db : DbOp → Except String Unit
  dbClock : DbOp → Int → Int
  send : Msg → Except String Unit

/-- How a `handle_command` run ends: `ok` for `Ok(())`, `err` for an `Err`
return (the `?` on `send_message_to_all`), `fatal` for a `panic` caused by
`.unwrap()` on an `Err`, `stuck` when a prompt would block or re-prompt
forever because the modelled input stream ran out. -/
inductive HOutcome where
  | ok
  | err (e : String)
  | fatal (e : String)
  | stuck
deriving DecidableEq, Repr

/-- Trace of one `handle_command` call: outcome, final clock, unread
inputs, and the db calls, prompt labels and broadcast attempts in order. -/
structure HRes where
  outcome : HOutcome
  clock : Int
  inputs : List String
  dbCalls : List DbOp
  prompts : List String
  sends : List Msg
deriving DecidableEq, Repr

/-- `prompt_parse` of `control.rs` (lines 203–214), generic in the
`FromStr` instance: prompt in a loop, return the first input that parses
(`prompt` trims each line).  Returns the prompt labels printed, the
remaining inputs, and the parsed value — `none` when the stream runs out,
which in Rust would block or loop forever. -/
def prompt_parse {α : Type} (parse : String → Option α) (label : String) :
    List String → List String × List String × Option α
  | [] => ([label], [], none)
  | x :: rest =>
    match parse (trim x) with
    | some v => ([label], rest, some v)
    | none =>
      let r := prompt_parse parse label rest
      (label :: r.1, r.2.1, r.2.2)

/-- `handle_command` of `control.rs` (lines 64–193).  Each branch mirrors
the Rust one statement at a time: `prompt` pops and trims the next input
line (stuck when none is left), every `db::...(...).unwrap()` becomes a
recorded `DbOp` whose `Err` result ends the run with `fatal`, the Transfer
statement `let _ = db::print_users(conn)` is recorded with its result discarded,
the clock is updated by the oracle exactly for the four calls that receive
`&mut lamport_time`, and `send_message_to_all(...).await?` is recorded and
its `Err` propagated as `err` — executed only under `if !from_network`.
The `if !from_network` body of the Refund branch is empty in the source
(`// TODO : send message`). -/
def handle_command (cmd : Command) (env : Env) (lamport_time : Int)
    (node : String) (inputs : List String) (from_network : Bool) : HRes :=
  match cmd with
  | Command.CreateUser =>
    match inputs with
    | [] => ⟨HOutcome.stuck, lamport_time, [], [], ["Username"], []⟩
    | x :: rest =>
      let name := trim x
      let op := DbOp.create_user name
      match env.db op with
      | Except.error e => ⟨HOutcome.fatal e, lamport_time, rest, [op], ["Username"], []⟩
      | Except.ok _ =>
        if from_network then
          ⟨HOutcome.ok, lamport_time, rest, [op], ["Username"], []⟩
        else
          let m : Msg := ⟨some Command.CreateUser, NetworkMessageCode.Transaction,
            MessageInfo.CreateUser name⟩
          match env.send m with
          | Except.error e => ⟨HOutcome.err e, lamport_time, rest, [op], ["Username"], [m]⟩
          | Except.ok _ => ⟨HOutcome.ok, lamport_time, rest, [op], ["Username"], [m]⟩
  | Command.UserAccounts =>
    let op := DbOp.print_users
    match env.db op with
    | Except.error e => ⟨HOutcome.fatal e, lamport_time, inputs, [op], [], []⟩
    | Except.ok _ => ⟨HOutcome.ok, lamport_time, inputs, [op], [], []⟩
  | Command.PrintUserTransactions =>
    match inputs with
    | [] => ⟨HOutcome.stuck, lamport_time, [], [], ["Username"], []⟩
    | x :: rest =>
      let op := DbOp.print_transaction_for_user (trim x)
      match env.db op with
      | Except.error e => ⟨HOutcome.fatal e, lamport_time, rest, [op], ["Username"], []⟩
      | Except.ok _ => ⟨HOutcome.ok, lamport_time, rest, [op], ["Username"], []⟩
  | Command.PrintTransactions =>
    let op := DbOp.print_transactions
    match env.db op with
    | Except.error e => ⟨HOutcome.fatal e, lamport_time, inputs, [op], [], []⟩
    | Except.ok _ => ⟨HOutcome.ok, lamport_time, inputs, [op], [], []⟩
  | Command.Deposit =>
    match inputs with
    | [] => ⟨HOutcome.stuck, lamport_time, [], [], ["Username"], []⟩
    | x :: rest =>
      let name := trim x
      match prompt_parse parse_f64 "Deposit amount" rest with
      | (ls, rem, none) => ⟨HOutcome.stuck, lamport_time, rem, [], "Username" :: ls, []⟩
      | (ls, rem, some amount) =>
        let op := DbOp.deposit name amount lamport_time node
        match env.db op with
        | Except.error e =>
          ⟨HOutcome.fatal e, lamport_time, rem, [op], "Username" :: ls, []⟩
        | Except.ok _ =>
          let clock2 := env.dbClock op lamport_time
          if from_network then
            ⟨HOutcome.ok, clock2, rem, [op], "Username" :: ls, []⟩
          else
            let m : Msg := ⟨some Command.Deposit, NetworkMessageCode.Transaction,
              MessageInfo.Deposit name amount⟩
            match env.send m with
            | Except.error e => ⟨HOutcome.err e, clock2, rem, [op], "Username" :: ls, [m]⟩
            | Except.ok _ => ⟨HOutcome.ok, clock2, rem, [op], "Username" :: ls, [m]⟩
  | Command.Withdraw =>
    match inputs with
    | [] => ⟨HOutcome.stuck, lamport_time, [], [], ["Username"], []⟩
    | x :: rest =>
      let name := trim x
      match prompt_parse parse_f64 "Withdraw amount" rest with
      | (ls, rem, none) => ⟨HOutcome.stuck, lamport_time, rem, [], "Username" :: ls, []⟩
      | (ls, rem, some amount) =>
        let op := DbOp.withdraw name amount lamport_time node
        match env.db op with
        | Except.error e =>
          ⟨HOutcome.fatal e, lamport_time, rem, [op], "Username" :: ls, []⟩
        | Except.ok _ =>
          let clock2 := env.dbClock op lamport_time
          if from_network then
            ⟨HOutcome.ok, clock2, rem, [op], "Username" :: ls, []⟩
          else
            let m : Msg := ⟨some Command.Withdraw, NetworkMessageCode.Transaction,
              MessageInfo.Withdraw name amount⟩
            match env.send m with
            | Except.error e => ⟨HOutcome.err e, clock2, rem, [op], "Username" :: ls, [m]⟩
            | Except.ok _ => ⟨HOutcome.ok, clock2, rem, [op], "Username" :: ls, [m]⟩
  | Command.Transfer =>
    match inputs with
    | [] => ⟨HOutcome.stuck, lamport_time, [], [], ["Username"], []⟩
    | x :: rest =>
      let name := trim x
      match prompt_parse parse_f64 "Transfer amount" rest with
      | (ls, rem, none) => ⟨HOutcome.stuck, lamport_time, rem, [], "Username" :: ls, []⟩
      | (ls, rem, some amount) =>
        let opP := DbOp.print_users
        let _ := env.db opP
        match rem with
        | [] =>
          ⟨HOutcome.stuck, lamport_time, [], [opP],
            "Username" :: ls ++ ["Beneficiary"], []⟩
        | y :: rest2 =>
          let beneficiary := trim y
          let op := DbOp.create_transaction name beneficiary amount lamport_time node ""
          match env.db op with
          | Except.error e =>
            ⟨HOutcome.fatal e, lamport_time, rest2, [opP, op],
              "Username" :: ls ++ ["Beneficiary"], []⟩
          | Except.ok _ =>
            let clock2 := env.dbClock op lamport_time
            if from_network then
              ⟨HOutcome.ok, clock2, rest2, [opP, op],
                "Username" :: ls ++ ["Beneficiary"], []⟩
            else
              let m : Msg := ⟨some Command.Transfer, NetworkMessageCode.Transaction,
                MessageInfo.Transfer name beneficiary amount⟩
              match env.send m with
              | Except.error e =>
                ⟨HOutcome.err e, clock2, rest2, [opP, op],
                  "Username" :: ls ++ ["Beneficiary"], [m]⟩
              | Except.ok _ =>
                ⟨HOutcome.ok, clock2, rest2, [opP, op],
                  "Username" :: ls ++ ["Beneficiary"], [m]⟩
  | Command.Pay =>
    match inputs with
    | [] => ⟨HOutcome.stuck, lamport_time, [], [], ["Username"], []⟩
    | x :: rest =>
      let name := trim x
      match prompt_parse parse_f64 "Payment amount" rest with
      | (ls, rem, none) => ⟨HOutcome.stuck, lamport_time, rem, [], "Username" :: ls, []⟩
      | (ls, rem, some amount) =>
        let op := DbOp.create_transaction name "NULL" amount lamport_time node ""
        match env.db op with
        | Except.error e =>
          ⟨HOutcome.fatal e, lamport_time, rem, [op], "Username" :: ls, []⟩
        | Except.ok _ =>
          let clock2 := env.dbClock op lamport_time
          if from_network then
            ⟨HOutcome.ok, clock2, rem, [op], "Username" :: ls, []⟩
          else
            let m : Msg := ⟨some Command.Pay, NetworkMessageCode.Transaction,
              MessageInfo.Pay name amount⟩
            match env.send m with
            | Except.error e => ⟨HOutcome.err e, clock2, rem, [op], "Username" :: ls, [m]⟩
            | Except.ok _ => ⟨HOutcome.ok, clock2, rem, [op], "Username" :: ls, [m]⟩
  | Command.Refund =>
    match inputs with
    | [] => ⟨HOutcome.stuck, lamport_time, [], [], ["Username"], []⟩
    | x :: rest =>
      let name := trim x
      let op1 := DbOp.print_transaction_for_user name
      match env.db op1 with
      | Except.error e => ⟨HOutcome.fatal e, lamport_time, rest, [op1], ["Username"], []⟩
      | Except.ok _ =>
        match prompt_parse parse_i64 "Lamport time" rest with
        | (ls, rem, none) =>
          ⟨HOutcome.stuck, lamport_time, rem, [op1], "Username" :: ls, []⟩
        | (ls, rem, some transacTime) =>
          match rem with
          | [] =>
            ⟨HOutcome.stuck, lamport_time, [], [op1],
              "Username" :: ls ++ ["Node"], []⟩
          | y :: rest2 =>
            let transacNode := trim y
            let op2 := DbOp.refund_transaction transacTime transacNode lamport_time node
            match env.db op2 with
            | Except.error e =>
              ⟨HOutcome.fatal e, lamport_time, rest2, [op1, op2],
                "Username" :: ls ++ ["Node"], []⟩
            | Except.ok _ =>
              let clock2 := env.dbClock op2 lamport_time
              ⟨HOutcome.ok, clock2, rest2, [op1, op2],
                "Username" :: ls ++ ["Node"], []⟩
  | Command.Help => ⟨HOutcome.ok, lamport_time, inputs, [], [], []⟩
  | Command.Unknown _ => ⟨HOutcome.ok, lamport_time, inputs, [], [], []⟩
  | Command.Error _ => ⟨HOutcome.ok, lamport_time, inputs, [], [], []⟩

/-- An all-succeeding oracle set: every db call returns `Ok(())` and
advances the clock by one, every broadcast succeeds. -/
def env0 : Env :=
  ⟨fun _ => Except.ok (), fun _ c => c + 1, fun _ => Except.ok ()⟩

/-- An oracle set whose ledger always fails with `"db failure"`. -/
def envErr : Env :=
  ⟨fun _ => Except.error "db failure", fun _ c => c, fun _ => Except.ok ()⟩

/-- C1: for every `Command` variant, a `handle_command` call with
`from_network = true` records no broadcast attempt at all — it never
constructs a `Message` and never invokes `send_message_to_all` — whatever
the oracle results and input stream are.  Every `send_message_to_all` call
in `control.rs` sits under `if !from_network`. -/
theorem network_commands_never_rebroadcast (cmd : Command) (env : Env)
    (clock : Int) (node : String) (inputs : List String) :
    (handle_command cmd env clock node inputs true).sends = [] := by
  cases cmd with
  | CreateUser =>
    cases inputs with
    | nil => rfl
    | cons x rest =>
      simp only [handle_command]
      cases env.db (DbOp.create_user (trim x)) <;> rfl
  | UserAccounts =>
    simp only [handle_command]
    cases env.db DbOp.print_users <;> rfl
  | PrintUserTransactions =>
    cases inputs with
    | nil => rfl
    | cons x rest =>
      simp only [handle_command]
      cases env.db (DbOp.print_transaction_for_user (trim x)) <;> rfl
  | PrintTransactions =>
    simp only [handle_command]
    cases env.db DbOp.print_transactions <;> rfl
  | Deposit =>
    cases inputs with
    | nil => rfl
    | cons x rest =>
      simp only [handle_command]
      rcases prompt_parse parse_f64 "Deposit amount" rest with ⟨ls, rem, r⟩
      cases r with
      | none => rfl
      | some amount =>
        dsimp only
        cases env.db (DbOp.deposit (trim x) amount clock node) <;> rfl
  | Withdraw =>
    cases inputs with
    | nil => rfl
    | cons x rest =>
      simp only [handle_command]
      rcases prompt_parse parse_f64 "Withdraw amount" rest with ⟨ls, rem, r⟩
      cases r with
      | none => rfl
      | some amount =>
        dsimp only
        cases env.db (DbOp.withdraw (trim x) amount clock node) <;> rfl
  | Transfer =>
    cases inputs with
    | nil => rfl
    | cons x rest =>
      simp only [handle_command]
      rcases prompt_parse parse_f64 "Transfer amount" rest with ⟨ls, rem, r⟩
      cases r with
      | none => rfl
      | some amount =>
        dsimp only
        cases rem with
        | nil => rfl
        | cons y rest2 =>
          dsimp only
          cases env.db
            (DbOp.create_transaction (trim x) (trim y) amount clock node "") <;> rfl
  | Pay =>
    cases inputs with
    | nil => rfl
    | cons x rest =>
      simp only [handle_command]
      rcases prompt_parse parse_f64 "Payment amount" rest with ⟨ls, rem, r⟩
      cases r with
      | none => rfl
      | some amount =>
        dsimp only
        cases env.db (DbOp.create_transaction (trim x) "NULL" amount clock node "") <;> rfl
  | Refund =>
    cases inputs with
    | nil => rfl
    | cons x rest =>
      simp only [handle_command]
      cases env.db (DbOp.print_transaction_for_user (trim x)) with
      | error e => rfl
      | ok _ =>
        rcases prompt_parse parse_i64 "Lamport time" rest with ⟨ls, rem, r⟩
        cases r with
        | none => rfl
        | some t =>
          dsimp only
          cases rem with
          | nil => rfl
          | cons y rest2 =>
            dsimp only
            cases env.db (DbOp.refund_transaction t (trim y) clock node) <;> rfl
  | Help => rfl
  | Unknown s => rfl
  | Error s => rfl

/-- C5 counterexample: the input `"/help "` (trailing blank) is none of the
ten command texts, yet `parse_command` maps it to `Help`, not to
`Unknown "/help "` — because the code matches on the *trimmed* input. -/
theorem parse_command_untrimmed_cex :
    parse_command "/help " = Command.Help ∧
      Command.Help ≠ Command.Unknown "/help " := by decide

/-- C5 as amended: `parse_command` matches the *trimmed* input — any input
whose trimmed form is one of the ten slash-command texts maps to the
corresponding variant, and every other input maps to `Unknown` of its
trimmed form; no input produces any other variant. -/
theorem parse_command_trimmed_spec (s : String) :
    (trim s = "/create_user" → parse_command s = Command.CreateUser) ∧
    (trim s = "/user_accounts" → parse_command s = Command.UserAccounts) ∧
    (trim s = "/print_user_tsx" → parse_command s = Command.PrintUserTransactions) ∧
    (trim s = "/print_tsx" → parse_command s = Command.PrintTransactions) ∧
    (trim s = "/deposit" → parse_command s = Command.Deposit) ∧
    (trim s = "/withdraw" → parse_command s = Command.Withdraw) ∧
    (trim s = "/transfer" → parse_command s = Command.Transfer) ∧
    (trim s = "/pay" → parse_command s = Command.Pay) ∧
    (trim s = "/refund" → parse_command s = Command.Refund) ∧
    (trim s = "/help" → parse_command s = Command.Help) ∧
    (trim s ∉ (["/create_user", "/user_accounts", "/print_user_tsx", "/print_tsx",
        "/deposit", "/withdraw", "/transfer", "/pay", "/refund", "/help"] : List String) →
      parse_command s = Command.Unknown (trim s)) := by
  refine ⟨fun h => by simp [parse_command, h], fun h => by simp [parse_command, h],
    fun h => by simp [parse_command, h], fun h => by simp [parse_command, h],
    fun h => by simp [parse_command, h], fun h => by simp [parse_command, h],
    fun h => by simp [parse_command, h], fun h => by simp [parse_command, h],
    fun h => by simp [parse_command, h], fun h => by simp [parse_command, h],
    fun h => ?_⟩
  simp only [List.mem_cons, List.not_mem_nil, or_false, not_or] at h
  obtain ⟨h1, h2, h3, h4, h5, h6, h7, h8, h9, h10⟩ := h
  simp [parse_command, h1, h2, h3, h4, h5, h6, h7, h8, h9, h10]

/-- Witness for `parse_command_trimmed_spec` at the concrete input
`" /deposit "`. -/
theorem parse_command_trimmed_spec_witness :
    parse_command " /deposit " = Command.Deposit :=
  (parse_command_trimmed_spec " /deposit ").2.2.2.2.1 (by decide)

/-- C6: on an input-read failure (`Err(e)` from stdin), `run_cli` returns
the `Error` variant — with the fixed text `"Erreur de lecture stdin"` — for
every error value, and no other variant; `run_cli` receives no connection,
so it performs no ledger mutation. -/
theorem run_cli_read_failure (e : String) :
    run_cli (Except.error e) = Command.Error "Erreur de lecture stdin" := rfl

/-- C7: for both values of `from_network`, `handle_command` on `Help`,
`Unknown` or `Error` returns `Ok(())` having performed no db call, no
prompt, no broadcast, and leaves the Lamport clock and input stream
untouched — the branches only log. -/
theorem terminal_commands_no_effect (cmd : Command) (env : Env) (clock : Int)
    (node : String) (inputs : List String) (fn : Bool) (s : String)
    (h : cmd = Command.Help ∨ cmd = Command.Unknown s ∨ cmd = Command.Error s) :
    handle_command cmd env clock node inputs fn =
      ⟨HOutcome.ok, clock, inputs, [], [], []⟩ := by
  rcases h with h | h | h <;> subst h <;> rfl

/-- Witness for `terminal_commands_no_effect`: `Help` on a concrete state. -/
theorem terminal_commands_no_effect_witness :
    handle_command Command.Help env0 7 "n1" ["x"] false =
      ⟨HOutcome.ok, 7, ["x"], [], [], []⟩ :=
  terminal_commands_no_effect Command.Help env0 7 "n1" ["x"] false "" (Or.inl rfl)

/-- C10: a successful read carrying no input (`Ok(None)`) is classified by
`run_cli` as the unknown command `Unknown "Aucun input"` — not as a read
failure (`Error`). -/
theorem run_cli_empty_input :
    run_cli (Except.ok none) = Command.Unknown "Aucun input" := rfl

/-- Helper: the `Refund` branch of `handle_command` records no broadcast
attempt for either value of `from_network` — its `if !from_network` body is
the empty `// TODO : send message`. -/
theorem refund_sends_nil (env : Env) (clock : Int) (node : String)
    (inputs : List String) (fn : Bool) :
    (handle_command Command.Refund env clock node inputs fn).sends = [] := by
  cases inputs with
  | nil => rfl
  | cons x rest =>
    simp only [handle_command]
    cases env.db (DbOp.print_transaction_for_user (trim x)) with
    | error e => rfl
    | ok _ =>
      rcases prompt_parse parse_i64 "Lamport time" rest with ⟨ls, rem, r⟩
      cases r with
      | none => rfl
      | some t =>
        dsimp only
        cases rem with
        | nil => rfl
        | cons y rest2 =>
          dsimp only
          cases env.db (DbOp.refund_transaction t (trim y) clock node) <;> rfl

/-- C2 counterexample: `Refund` is a ledger-mutating command, and on a
local run (`from_network = false`) whose `refund_transaction` call succeeds
(outcome `ok`, the refund call recorded), `handle_command` makes zero
broadcast attempts, not one. -/
theorem refund_local_no_broadcast_cex :
    (handle_command Command.Refund env0 0 "n1" ["u", "3", "nA"] false).outcome =
      HOutcome.ok ∧
    DbOp.refund_transaction 3 "nA" 0 "n1" ∈
      (handle_command Command.Refund env0 0 "n1" ["u", "3", "nA"] false).dbCalls ∧
    (handle_command Command.Refund env0 0 "n1" ["u", "3", "nA"] false).sends.length =
      0 := by decide

/-- C2 as amended: of the ledger-mutating commands run with
`from_network = false`, `CreateUser`, `Deposit`, `Withdraw`, `Transfer` and
`Pay` make exactly one broadcast attempt (one `send_message_to_all` call,
with the matching payload) once their Ledger Store operation succeeds,
while `Refund` makes none. -/
theorem local_mutating_commands_broadcast_once (env : Env) (clock : Int)
    (node : String) :
    (∀ name rest, env.db (DbOp.create_user (trim name)) = Except.ok () →
      (handle_command Command.CreateUser env clock node (name :: rest) false).sends =
        [⟨some Command.CreateUser, NetworkMessageCode.Transaction,
          MessageInfo.CreateUser (trim name)⟩]) ∧
    (∀ name amt rest a, parse_f64 (trim amt) = some a →
      env.db (DbOp.deposit (trim name) a clock node) = Except.ok () →
      (handle_command Command.Deposit env clock node (name :: amt :: rest) false).sends =
        [⟨some Command.Deposit, NetworkMessageCode.Transaction,
          MessageInfo.Deposit (trim name) a⟩]) ∧
    (∀ name amt rest a, parse_f64 (trim amt) = some a →
      env.db (DbOp.withdraw (trim name) a clock node) = Except.ok () →
      (handle_command Command.Withdraw env clock node (name :: amt :: rest) false).sends =
        [⟨some Command.Withdraw, NetworkMessageCode.Transaction,
          MessageInfo.Withdraw (trim name) a⟩]) ∧
    (∀ name amt ben rest a, parse_f64 (trim amt) = some a →
      env.db (DbOp.create_transaction (trim name) (trim ben) a clock node "") =
        Except.ok () →
      (handle_command Command.Transfer env clock node
          (name :: amt :: ben :: rest) false).sends =
        [⟨some Command.Transfer, NetworkMessageCode.Transaction,
          MessageInfo.Transfer (trim name) (trim ben) a⟩]) ∧
    (∀ name amt rest a, parse_f64 (trim amt) = some a →
      env.db (DbOp.create_transaction (trim name) "NULL" a clock node "") =
        Except.ok () →
      (handle_command Command.Pay env clock node (name :: amt :: rest) false).sends =
        [⟨some Command.Pay, NetworkMessageCode.Transaction,
          MessageInfo.Pay (trim name) a⟩]) ∧
    (∀ inputs, (handle_command Command.Refund env clock node inputs false).sends = []) := by
  refine ⟨?_, ?_, ?_, ?_, ?_, fun inputs => refund_sends_nil env clock node inputs false⟩
  · intro name rest hdb
    cases hs : env.send ⟨some Command.CreateUser, NetworkMessageCode.Transaction,
        MessageInfo.CreateUser (trim name)⟩ <;>
      simp [handle_command, hdb, hs]
  · intro name amt rest a hp hdb
    cases hs : env.send ⟨some Command.Deposit, NetworkMessageCode.Transaction,
        MessageInfo.Deposit (trim name) a⟩ <;>
      simp [handle_command, prompt_parse, hp, hdb, hs]
  · intro name amt rest a hp hdb
    cases hs : env.send ⟨some Command.Withdraw, NetworkMessageCode.Transaction,
        MessageInfo.Withdraw (trim name) a⟩ <;>
      simp [handle_command, prompt_parse, hp, hdb, hs]
  · intro name amt ben rest a hp hdb
    cases hs : env.send ⟨some Command.Transfer, NetworkMessageCode.Transaction,
        MessageInfo.Transfer (trim name) (trim ben) a⟩ <;>
      simp [handle_command, prompt_parse, hp, hdb, hs]
  · intro name amt rest a hp hdb
    cases hs : env.send ⟨some Command.Pay, NetworkMessageCode.Transaction,
        MessageInfo.Pay (trim name) a⟩ <;>
      simp [handle_command, prompt_parse, hp, hdb, hs]

/-- Witness for `local_mutating_commands_broadcast_once`: one concrete
`CreateUser` run broadcasts exactly its own payload. -/
theorem local_mutating_commands_broadcast_once_witness :
    (handle_command Command.CreateUser env0 0 "n1" ["alice"] false).sends =
      [⟨some Command.CreateUser, NetworkMessageCode.Transaction,
        MessageInfo.CreateUser "alice"⟩] :=
  (local_mutating_commands_broadcast_once env0 0 "n1").1 "alice" [] rfl

/-- C3: for both values of `from_network`, the `Refund` branch makes no
broadcast attempt (hence constructs no `Message`), while it does invoke the
local `refund_transaction` mutation with the prompted
`(lamport_time, node)` key once its inputs are supplied and the preceding
transaction listing succeeds. -/
theorem refund_never_replicates (env : Env) (clock : Int) (node : String)
    (fn : Bool) :
    (∀ inputs, (handle_command Command.Refund env clock node inputs fn).sends = []) ∧
    (∀ name ts tn tv, parse_i64 (trim ts) = some tv →
      env.db (DbOp.print_transaction_for_user (trim name)) = Except.ok () →
      DbOp.refund_transaction tv (trim tn) clock node ∈
        (handle_command Command.Refund env clock node [name, ts, tn] fn).dbCalls) := by
  constructor
  · exact fun inputs => refund_sends_nil env clock node inputs fn
  · intro name ts tn tv hp hprint
    cases hr : env.db (DbOp.refund_transaction tv (trim tn) clock node) <;>
      simp [handle_command, prompt_parse, hp, hprint, hr]

/-- Witness for `refund_never_replicates` on a concrete network-side run. -/
theorem refund_never_replicates_witness :
    (handle_command Command.Refund env0 0 "n1" ["u", "3", "nA"] true).sends = [] ∧
    DbOp.refund_transaction 3 "nA" 0 "n1" ∈
      (handle_command Command.Refund env0 0 "n1" ["u", "3", "nA"] true).dbCalls :=
  ⟨(refund_never_replicates env0 0 "n1" true).1 ["u", "3", "nA"],
   (refund_never_replicates env0 0 "n1" true).2 "u" "3" "nA" 3 (by decide) rfl⟩

/-- C4 evaluated at the failing input: a network-originated `Deposit`
(`from_network = true`) still takes its arguments from the interactive
prompt — `handle_command` has no `MessageInfo` parameter at all, issues the
`Username` and `Deposit amount` prompts, and feeds the *prompted* values to
the ledger. -/
theorem network_deposit_still_prompts :
    (handle_command Command.Deposit env0 0 "n1" ["alice", "10"] true).prompts =
      ["Username", "Deposit amount"] ∧
    DbOp.deposit "alice" 10 0 "n1" ∈
      (handle_command Command.Deposit env0 0 "n1" ["alice", "10"] true).dbCalls := by
  decide

/-- C8 counterexample: with a ledger oracle that fails every call, a local
`CreateUser` ends in a `panic` (`.unwrap()` on the `Err`), not in an `Err`
return — the failure is fatal, not propagated to the caller. -/
theorem db_error_panics_cex :
    (handle_command Command.CreateUser envErr 0 "n1" ["alice"] false).outcome =
      HOutcome.fatal "db failure" ∧
    ∀ e, HOutcome.fatal "db failure" ≠ HOutcome.err e :=
  ⟨rfl, fun e h => by simp at h⟩

/-- C8 as amended: for every ledger-mutating command, when the invoked
Ledger Store operation returns an error, `handle_command` panics on the
`.unwrap()` — terminating fatally instead of returning the failure as an
`Err` to its caller.  (Only `send_message_to_all` failures are propagated,
via `?`.) -/
theorem db_error_causes_fatal_unwrap (env : Env) (e : String)
    (hdb : ∀ op, env.db op = Except.error e) (clock : Int) (node : String)
    (fn : Bool) :
    (∀ name rest,
      (handle_command Command.CreateUser env clock node (name :: rest) fn).outcome =
        HOutcome.fatal e) ∧
    (∀ name amt rest a, parse_f64 (trim amt) = some a →
      (handle_command Command.Deposit env clock node (name :: amt :: rest) fn).outcome =
        HOutcome.fatal e) ∧
    (∀ name amt rest a, parse_f64 (trim amt) = some a →
      (handle_command Command.Withdraw env clock node (name :: amt :: rest) fn).outcome =
        HOutcome.fatal e) ∧
    (∀ name amt ben rest a, parse_f64 (trim amt) = some a →
      (handle_command Command.Transfer env clock node
          (name :: amt :: ben :: rest) fn).outcome = HOutcome.fatal e) ∧
    (∀ name amt rest a, parse_f64 (trim amt) = some a →
      (handle_command Command.Pay env clock node (name :: amt :: rest) fn).outcome =
        HOutcome.fatal e) ∧
    (∀ name rest,
      (handle_command Command.Refund env clock node (name :: rest) fn).outcome =
        HOutcome.fatal e) := by
  refine ⟨?_, ?_, ?_, ?_, ?_, ?_⟩
  · intro name rest
    simp [handle_command, hdb]
  · intro name amt rest a hp
    simp [handle_command, prompt_parse, hp, hdb]
  · intro name amt rest a hp
    simp [handle_command, prompt_parse, hp, hdb]
  · intro name amt ben rest a hp
    simp [handle_command, prompt_parse, hp, hdb]
  · intro name amt rest a hp
    simp [handle_command, prompt_parse, hp, hdb]
  · intro name rest
    simp [handle_command, hdb]

/-- Witness for `db_error_causes_fatal_unwrap` on a concrete failing
ledger. -/
theorem db_error_causes_fatal_unwrap_witness :
    (handle_command Command.CreateUser envErr 0 "n1" ["alice"] true).outcome =
      HOutcome.fatal "db failure" :=
  (db_error_causes_fatal_unwrap envErr "db failure" (fun _ => rfl) 0 "n1" true).1
    "alice" []

/-- C9 counterexample: the amount prompt loop accepts `"-5"` — it parses as
an `f64`, the loop returns `-5`, and the `Deposit` branch passes `-5` to
the ledger as the amount, although `-5` is not positive. -/
theorem negative_amount_accepted_cex :
    (prompt_parse parse_f64 "Deposit amount" ["-5"]).2.2 = some (-5 : ℚ) ∧
    DbOp.deposit "alice" (-5) 0 "n1" ∈
      (handle_command Command.Deposit env0 0 "n1" ["alice", "-5"] false).dbCalls ∧
    ¬ (0 : ℚ) < -5 := by decide

/-- C9 as amended: the prompt loop re-prompts until an input parses as a
decimal of the requested type, and the value it finally returns is exactly
the parse of the first parseable input — unparseable inputs are never
accepted, but no positivity check is made, so non-positive amounts are
accepted. -/
theorem prompt_parse_first_parseable {α : Type} (parse : String → Option α)
    (label : String) (inputs : List String) (v : α)
    (h : (prompt_parse parse label inputs).2.2 = some v) :
    ∃ pre x post, inputs = pre ++ x :: post ∧
      (∀ y ∈ pre, parse (trim y) = none) ∧ parse (trim x) = some v := by
  induction inputs with
  | nil => simp [prompt_parse] at h
  | cons x rest ih =>
    simp only [prompt_parse] at h
    cases hp : parse (trim x) with
    | some w =>
      rw [hp] at h
      simp only [Option.some.injEq] at h
      exact ⟨[], x, rest, rfl, by simp, by rw [hp, h]⟩
    | none =>
      rw [hp] at h
      simp only at h
      obtain ⟨pre, y, post, heq, hall, hy⟩ := ih h
      refine ⟨x :: pre, y, post, by simp [heq], ?_, hy⟩
      intro z hz
      rcases List.mem_cons.mp hz with rfl | hz2
      · exact hp
      · exact hall z hz2

/-- Witness for `prompt_parse_first_parseable`: with inputs
`["abc", "-5"]` the loop skips the unparseable `"abc"` and returns `-5`. -/
theorem prompt_parse_first_parseable_witness :
    ∃ pre x post, (["abc", "-5"] : List String) = pre ++ x :: post ∧
      (∀ y ∈ pre, parse_f64 (trim y) = none) ∧ parse_f64 (trim x) = some (-5 : ℚ) :=
  prompt_parse_first_parseable parse_f64 "Deposit amount" ["abc", "-5"] (-5)
    (by decide)

end Peillute
